import Mathlib

/-!
Verification of the AT-command correlation and SMS reassembly core of the
web-serial-gsm library.  The TypeScript sources `ATCommandSet.ts` and
`Modem.ts` are shallowly embedded below: JavaScript strings become
`List Char`, the two splitting regular expressions become explicit scanning
functions, promise resolution of `listenUntilEnd` becomes a fold over the
finite list of chunks delivered before the timeout timer fires, and thrown
exceptions become `Except.error`.  External collaborators (the serial
transport and the binary PDU codec `node-sms-pdu`) are abstracted as
function parameters, exactly as the spec designates them collaborators.
-/

namespace WSGsm

/-- Characters of a string literal, the carrier for JavaScript strings. -/
def chars (s : String) : List Char := s.data

/-- Whitespace characters removed by the JavaScript `String.prototype.trim`
(the subset that can occur in this protocol's traffic). -/
def jsWhitespaceChar (c : Char) : Bool :=
  c == ' ' || c == '\t' || c == '\n' || c == '\r' || c == '\x0b' || c == '\x0c'

/-- JavaScript `s.trim()`: strip leading and trailing whitespace. -/
def jsTrim (s : List Char) : List Char :=
  ((s.dropWhile jsWhitespaceChar).reverse.dropWhile jsWhitespaceChar).reverse

/-- JavaScript `s.slice(0, -n)`: drop the final `n` characters (all of them
when the string is shorter than `n`, matching the clamping of `slice`). -/
def jsDropRight (n : Nat) (s : List Char) : List Char :=
  s.take (s.length - n)

/-- JavaScript `s.includes(sub)`: substring containment test. -/
def containsSub (sub : List Char) : List Char → Bool
  | [] => sub.isPrefixOf ([] : List Char)
  | c :: rest => sub.isPrefixOf (c :: rest) || containsSub sub rest

/-- JavaScript `s.split(sep)` for a one-character separator: empty pieces are
kept, and the result is never the empty list. -/
def jsSplitOn (sep : Char) : List Char → List (List Char)
  | [] => [[]]
  | c :: rest =>
    if c == sep then [] :: jsSplitOn sep rest
    else
      match jsSplitOn sep rest with
      | [] => [[c]]
      | piece :: pieces => (c :: piece) :: pieces

/-- Match for the zero-width pattern of `ATResponse`'s splitting regular
expression: a position followed by a line break and a `+` or `^` sentinel. -/
def itemBoundary : List Char → Bool
  | '\r' :: '\n' :: c :: _ => c == '+' || c == '^'
  | _ => false

/-- Worker for `splitBeforeItems`.  `acc` holds the current piece reversed; a
new piece starts at every non-initial position where `itemBoundary` holds
(JavaScript's `split` never produces a split at position 0 for a zero-width
match, hence the `acc` emptiness guard). -/
def splitBeforeItemsGo (acc : List Char) : List Char → List (List Char)
  | [] => [acc.reverse]
  | c :: rest =>
    if itemBoundary (c :: rest) && !acc.isEmpty then
      acc.reverse :: splitBeforeItemsGo [c] rest
    else
      splitBeforeItemsGo (c :: acc) rest

/-- JavaScript `rawOutput.split(lookahead of crlf then sentinel)` from the
`ATResponse` constructor: split before each line break followed by `+`/`^`. -/
def splitBeforeItems (s : List Char) : List (List Char) :=
  splitBeforeItemsGo [] s

/-- Match for the lookbehind pattern of `ATResponseItem`'s splitting regular
expression, tested on the reversed prefix read so far: the two characters
just read are a line break or a colon-space separator. -/
def headerBoundary : List Char → Bool
  | b :: a :: _ => (a == '\r' && b == '\n') || (a == ':' && b == ' ')
  | _ => false

/-- Worker for `splitAfterHeaders`.  A piece is closed right after a
two-character boundary, except at the very end of the string (JavaScript's
`split` never attempts a match at the final position, so no trailing empty
piece is produced). -/
def splitAfterHeadersGo (acc : List Char) : List Char → List (List Char)
  | [] => [acc.reverse]
  | c :: rest =>
    if headerBoundary (c :: acc) && !rest.isEmpty then
      (c :: acc).reverse :: splitAfterHeadersGo [] rest
    else
      splitAfterHeadersGo (c :: acc) rest

/-- JavaScript `rawOutput.split(lookbehind of crlf or colon-space)` from the
`ATResponseItem` constructor: split after each line break or colon-space. -/
def splitAfterHeaders (s : List Char) : List (List Char) :=
  splitAfterHeadersGo [] s

/-! Constants of `ATCommandSet` (`ATCommandSet.ts`, lines 124-129). -/

/-- Constant `ATCommandSet.CR`. -/
def atCR : List Char := chars "\r\n"

/-- Constant `ATCommandSet.OK`, the success terminal marker. -/
def atOK : List Char := atCR ++ chars "OK" ++ atCR

/-- Constant `ATCommandSet.INP`, the input prompt marker. -/
def atINP : List Char := chars "> "

/-- Constant `ATCommandSet.ERR`, the error marker substring. -/
def atERR : List Char := chars "ERROR"

/-! Command encoders (`ATCommandSet.ts`, lines 132-161). -/

/-- Encoder `ATCommandSet.AT()`. -/
def atCmdAT : List Char := chars "AT" ++ atCR

/-- Encoder `ATCommandSet.setPdu(mode)`. -/
def atCmdSetPdu (mode : Nat) : List Char := chars ("AT+CMGF=" ++ toString mode) ++ atCR

/-- Encoder `ATCommandSet.setErrorFormat(mode)`. -/
def atCmdSetErrorFormat (mode : Nat) : List Char := chars ("AT+CMEE=" ++ toString mode) ++ atCR

/-- Encoder `ATCommandSet.setEcho(mode)`. -/
def atCmdSetEcho (mode : Nat) : List Char := chars ("ATE" ++ toString mode) ++ atCR

/-- Encoder `ATCommandSet.setPreferredStorage(storage)`. -/
def atCmdSetPreferredStorage (storage : List Char) : List Char :=
  chars "AT+CPMS=" ++ storage ++ [','] ++ storage ++ atCR

/-- Encoder `ATCommandSet.listMessages(status)`. -/
def atCmdListMessages (status : Nat) : List Char :=
  chars ("AT+CMGL=" ++ toString status) ++ atCR

/-- Class `ATError` (`ATCommandSet.ts`, lines 24-34).  The source casts `type` to a
literal union; at runtime it is simply the first space-separated segment, and
`shift`/`pop` on an exhausted array yield `undefined`, modelled by
`Option`. -/
structure ATError where
  response : List Char
  type : Option (List Char)
  code : Option (List Char)
deriving DecidableEq

/-- Constructor of `ATError`: trims the response, splits the untrimmed text
on single spaces, takes the first segment as `type` and the last remaining
segment as `code`. -/
def mkATError (res : List Char) : ATError :=
  let segments := jsSplitOn ' ' res
  { response := jsTrim res
    type := segments.head?.map jsTrim
    code := (segments.drop 1).getLast?.map jsTrim }

/-- Class `ATResponseItem` (`ATCommandSet.ts`, lines 53-75), without the lazily
decoded `pdu` field, which belongs to the external codec. -/
structure ATResponseItem where
  rawOutput : List Char
  command : Option (List Char)
  args : List (List Char)
  data : Option (List Char)
deriving DecidableEq

/-- Constructor of `ATResponseItem`: trim the item, split it after line
breaks and colon-space separators, trim the pieces and drop the empty ones;
`pop` the last piece as `data`, `shift` the first remaining piece as
`command`, `pop` the last of what is left and split it on commas as `args`.
The source guards `command` and `args` with truthiness, which on the already
filtered (hence non-empty) pieces is plain presence. -/
def mkATResponseItem (item : List Char) : ATResponseItem :=
  let raw := jsTrim item
  let splitOutput := ((splitAfterHeaders raw).map jsTrim).filter (fun s => !s.isEmpty)
  let data := splitOutput.getLast?
  let rest := splitOutput.dropLast
  let command := rest.head?
  let args :=
    match (rest.drop 1).getLast? with
    | some a => jsSplitOn ',' a
    | none => []
  { rawOutput := raw, command := command, args := args, data := data }

/-- Class `ATResponse` (`ATCommandSet.ts`, lines 36-51). -/
structure ATResponse where
  rawOutput : List Char
  ok : Bool
  items : List ATResponseItem
deriving DecidableEq

/-- Constructor of `ATResponse`: record whether the raw output ends with the
success marker, then unconditionally slice the marker's length off the end,
split before each sentinel-prefixed line, drop empty pieces and build the
items. -/
def mkATResponse (rawOutput : List Char) : ATResponse :=
  let ok := atOK.isSuffixOf rawOutput
  let truncated := jsDropRight atOK.length rawOutput
  let splitOutput := (splitBeforeItems truncated).filter (fun s => !s.isEmpty)
  { rawOutput := rawOutput, ok := ok, items := splitOutput.map mkATResponseItem }

/-! Request correlator (`Modem.ts`, `listenUntilEnd`, lines 201-225).
The promise is resolved by the first of three paths: the accumulated text
ends with the success marker, the accumulated text contains the error
marker, or the timeout timer fires.  Time is abstracted by the finite list
of chunks the reader delivers before the timer fires: the fold below walks
those chunks in order and, when none of them triggers a terminal condition,
the timer resolution applies. -/

/-- Result pair of `listenUntilEnd`: `[ATResponse | null, ATError | null]`. -/
abbrev LueResult := Option ATResponse × Option ATError

/-- Error value produced by the timeout path of `listenUntilEnd`. -/
def timedOutError : ATError := mkATError (chars "ERROR: Request Timed Out")

/-- Worker for `listenUntilEnd`: `acc` is the text accumulated in `res` so
far; each chunk is appended, then the listener checks first whether the
accumulation ends with `endM` (resolving with a parsed response) and only
otherwise whether it contains the error marker (resolving with an error);
exhausting the delivered chunks means the timeout timer fires. -/
def lueGo (endM acc : List Char) : List (List Char) → LueResult
  | [] => (none, some timedOutError)
  | chunk :: rest =>
    if endM.isSuffixOf (acc ++ chunk) then
      (some (mkATResponse (acc ++ chunk)), none)
    else if containsSub atERR (acc ++ chunk) then
      (none, some (mkATError (acc ++ chunk)))
    else
      lueGo endM (acc ++ chunk) rest

/-- Method `Modem.listenUntilEnd(end, timeout)` driven by the chunks delivered
before the timer fires. -/
def listenUntilEnd (endM : List Char) (chunks : List (List Char)) : LueResult :=
  lueGo endM [] chunks

/-- Predicate of the timeout scenario: starting from accumulation `acc`, no
delivered chunk ever makes the accumulated text end with the success marker
`endM` or contain the error marker. -/
def noTerminal (endM acc : List Char) : List (List Char) → Bool
  | [] => true
  | chunk :: rest =>
    !endM.isSuffixOf (acc ++ chunk) && !containsSub atERR (acc ++ chunk) &&
      noTerminal endM (acc ++ chunk) rest

/-! Boot sequencer and connection state machine (`Modem.ts`). -/

/-- Union `ModemStatus` (`Modem.ts`, line 33). -/
inductive ModemStatus where
  | connecting
  | connected
  | disconnected
deriving DecidableEq

/-- Environment abstraction for the boot sequencer: what
`listenUntilEnd()` resolves to after a given command has been written to
the transport.  The transport and the device behind it are external
collaborators. -/
abbrev Device := List Char → LueResult

/-- Equality on `Except` values is decidable when it is on both sides. -/
instance instDecEqExcept {ε α : Type} [DecidableEq ε] [DecidableEq α] :
    DecidableEq (Except ε α) := fun x y =>
  match x, y with
  | Except.ok a, Except.ok b =>
    if h : a = b then isTrue (by rw [h]) else isFalse (by simp [h])
  | Except.error a, Except.error b =>
    if h : a = b then isTrue (by rw [h]) else isFalse (by simp [h])
  | Except.ok _, Except.error _ => isFalse (by simp)
  | Except.error _, Except.ok _ => isFalse (by simp)

/-- Observable outcome of `Modem.boot`: the commands written to the
transport in order, the status assignment performed by `checkBootError`
(`none` when boot never touches the status), and normal completion versus
the thrown boot failure message. -/
structure BootOutcome where
  issued : List (List Char)
  statusSet : Option ModemStatus
  result : Except (List Char) Unit
deriving DecidableEq

/-- Worker for `bootModel`: run the remaining boot commands in order.  Each
step sends its command and hands the correlator's outcome to
`checkBootError` (`Modem.ts`, lines 120-125), which on a populated error
slot sets the status to `disconnected` and throws
`Failed to boot: <error response>`, aborting the remaining steps. -/
def bootGo (dev : Device) : List (List Char) → BootOutcome
  | [] => { issued := [], statusSet := none, result := Except.ok () }
  | c :: cs =>
    match (dev c).2 with
    | some err =>
        { issued := [c]
          statusSet := some ModemStatus.disconnected
          result := Except.error (chars "Failed to boot: " ++ err.response) }
    | none =>
        let o := bootGo dev cs
        { issued := c :: o.issued, statusSet := o.statusSet, result := o.result }

/-- The five boot-step commands in the order `Modem.boot` issues them
(`Modem.ts`, lines 113-119): verify device present, set PDU mode 0, set
error-report verbosity 1, disable echo, set preferred storage ME. -/
def bootCommands : List (List Char) :=
  [atCmdAT, atCmdSetPdu 0, atCmdSetErrorFormat 1, atCmdSetEcho 0,
   atCmdSetPreferredStorage (chars "ME")]

/-- Method `Modem.boot` under device behaviour `dev`. -/
def bootModel (dev : Device) : BootOutcome :=
  bootGo dev bootCommands

/-- Connection state plus the trace of `statusChange` notifications emitted
so far (each carrying the new state). -/
structure ModemState where
  status : ModemStatus
  statusEvents : List ModemStatus
deriving DecidableEq

/-- The `status` setter (`Modem.ts`, lines 53-56): store the new value and
emit a `statusChange` notification carrying it. -/
def setStatus (s : ModemState) (v : ModemStatus) : ModemState :=
  { status := v, statusEvents := s.statusEvents ++ [v] }

/-- Status assignment performed inside `boot`, applied to a state. -/
def applyBootStatus (s : ModemState) (b : BootOutcome) : ModemState :=
  match b.statusSet with
  | some v => setStatus s v
  | none => s

/-- Method `Modem.connect` (`Modem.ts`, lines 74-86) as far as the connection state
machine is observed.  The initial status is the field initializer
`connecting` (line 40).  Opening the port and starting the reader and
writer are transport effects; `boot` then runs, and on a thrown boot
failure the `catch` block assigns `disconnected` (on top of the assignment
`checkBootError` already made).  On success, `setScid` and `setImei` run;
neither touches the status, and no other assignment follows. -/
def connectModel (dev : Device) : ModemState :=
  let s0 : ModemState := { status := ModemStatus.connecting, statusEvents := [] }
  let b := bootModel dev
  match b.result with
  | Except.error _ => setStatus (applyBootStatus s0 b) ModemStatus.disconnected
  | Except.ok _ => s0

/-! Message reassembly (`ATCommandSet.ts`, class `Sms`, lines 76-122).
The PDU codec (`node-sms-pdu`) is an external collaborator; a segment is
modelled by its decoded `ParsedPdu` content, which is all the reassembler
reads. -/

/-- Concatenation metadata of a decoded PDU (`ParsedPdu.concat`). -/
structure ConcatMeta where
  reference : Nat
  sequence : Nat
  total : Nat
deriving DecidableEq

/-- Decoded PDU content consumed by the reassembler (`ParsedPdu`,
`ATCommandSet.ts`, lines 10-22).  The timestamp is kept as its raw text;
its conversion through `new Date` is external. -/
structure PduData where
  origination : List Char
  text : List Char
  timestamp : List Char
  type : List Char
  concat : Option ConcatMeta
deriving DecidableEq

/-- A response item together with its decoded PDU, the shape the `Sms`
constructor consumes (`item.pdu`). -/
structure SmsSegment where
  pdu : PduData
deriving DecidableEq

/-- The comparator passed to `segments.sort` (`ATCommandSet.ts`, lines
92-96): the difference of sequence numbers when both segments carry
concatenation metadata, and 0 (keep relative order) otherwise. -/
def smsCompare (a b : SmsSegment) : Int :=
  match a.pdu.concat, b.pdu.concat with
  | some ca, some cb => (ca.sequence : Int) - (cb.sequence : Int)
  | _, _ => 0

/-- Stable insertion of a segment into a sorted run, placing `x` before the
first element it does not compare after. -/
def smsInsert (x : SmsSegment) : List SmsSegment → List SmsSegment
  | [] => [x]
  | y :: ys => if smsCompare x y ≤ 0 then x :: y :: ys else y :: smsInsert x ys

/-- JavaScript `Array.prototype.sort` with `smsCompare`, realised as a
stable insertion sort (ECMAScript sort is stable; with a consistent
comparator any stable comparison sort computes the same list, and the
claims verified below only concern inputs on which `smsCompare` is
consistent, namely segments that all carry concatenation metadata). -/
def smsSort : List SmsSegment → List SmsSegment
  | [] => []
  | x :: xs => smsInsert x (smsSort xs)

/-- Sequence number of a segment, 0 when it has no metadata. -/
def segSeq (s : SmsSegment) : Nat :=
  match s.pdu.concat with
  | some c => c.sequence
  | none => 0

/-- Class `Sms` as observed through its fields (`ATCommandSet.ts`, lines 76-100).
The stored `length` is the source's unimplemented `0`. -/
structure Sms where
  segments : List SmsSegment
  length : Nat
  sender : List Char
  text : List Char
  timestamp : List Char
  type : List Char
deriving DecidableEq

/-- The `Sms` constructor.  `sender` is read from `segments[0]` BEFORE the
in-place `sort` call mutates the array (line 90 precedes lines 91-97),
while `timestamp` and `type` are read from `segments[0]` AFTER the
mutation (lines 98-99), hence from the head of the sorted order; `text`
folds the sorted segments' decoded texts together.  On an empty input the
source would fault reading `segments[0]`; the model defaults those reads
to the empty string. -/
def mkSms (segments : List SmsSegment) : Sms :=
  let sorted := smsSort segments
  { segments := sorted
    length := 0
    sender := (segments.head?.map (fun s => s.pdu.origination)).getD []
    text := sorted.foldl (fun acc s => acc ++ s.pdu.text) []
    timestamp := (sorted.head?.map (fun s => s.pdu.timestamp)).getD []
    type := (sorted.head?.map (fun s => s.pdu.type)).getD [] }

/-- One step of the fold inside `Sms.fromATResponse` (`ATCommandSet.ts`,
lines 104-111): an item without metadata immediately becomes a standalone
message; an item with metadata joins the insertion-ordered bucket of its
reference, creating the bucket on first sight. -/
def smsGroupStep (acc : List Sms × List (Nat × List SmsSegment)) (item : SmsSegment) :
    List Sms × List (Nat × List SmsSegment) :=
  match item.pdu.concat with
  | none => (acc.1 ++ [mkSms [item]], acc.2)
  | some c =>
    if acc.2.any (fun b => b.1 == c.reference) then
      (acc.1, acc.2.map (fun b => if b.1 == c.reference then (b.1, b.2 ++ [item]) else b))
    else
      (acc.1, acc.2 ++ [(c.reference, [item])])

/-- Method `Sms.fromATResponse` on already decoded segments: standalone messages
in arrival order, followed by one reassembled message per reference bucket
in first-seen order (JavaScript `Map` iteration order). -/
def smsFromItems (items : List SmsSegment) : List Sms :=
  let acc := items.foldl smsGroupStep ([], [])
  acc.1 ++ acc.2.map (fun b => mkSms b.2)

/-- Method `Sms.fromATResponse(res)` with the external PDU codec abstracted as
`decode`, applied to each item's `data` payload (the `pdu` getter parses
`this.data`). -/
def smsFromATResponse (decode : List Char → PduData) (res : ATResponse) : List Sms :=
  smsFromItems (res.items.map (fun it => SmsSegment.mk (decode (it.data.getD []))))

/-- Method `Modem.listMessages` (`Modem.ts`, lines 157-163): issue the listing
command, correlate, and on a populated error slot THROW an `Error` carrying
the error's response text (`Except.error`); otherwise reassemble the
response's items.  The `(none, none)` arm is unreachable (the correlator
always populates exactly one slot) and is given the value the claims never
reach. -/
def listMessagesModel (decode : List Char → PduData) (chunks : List (List Char)) :
    Except (List Char) (List Sms) :=
  match listenUntilEnd atOK chunks with
  | (_, some err) => Except.error err.response
  | (some res, none) => Except.ok (smsFromATResponse decode res)
  | (none, none) => Except.ok []

/-! Concrete fixtures used to instantiate the verified statements. -/

/-- A plain success response, the reply of a well-behaved device to a
configuration command. -/
def okResp : ATResponse := mkATResponse atOK

/-- A device error as produced by the error resolution path on a CMS error
report. -/
def err500 : ATError := mkATError (chars "\r\n+CMS ERROR: 500\r\n")

/-- Device behaviour that fails the third boot step (error-report
verbosity) and answers every other command with a success response. -/
def dev3 : Device := fun cmd =>
  if cmd = atCmdSetErrorFormat 1 then (none, some err500) else (some okResp, none)

/-- Device behaviour that answers every command with a success response. -/
def allOkDevice : Device := fun _ => (some okResp, none)

/-- Degenerate stand-in for the external PDU codec, used where the decoded
content is irrelevant. -/
def decodeNil : List Char → PduData := fun _ =>
  { origination := [], text := [], timestamp := [], type := [], concat := none }

/-- First segment of the spec's reassembly scenario: reference 7, sequence
1 of 2, text "hello ". -/
def segHello : SmsSegment :=
  ⟨{ origination := chars "+3531111111", text := chars "hello ",
     timestamp := chars "2024-01-01 10:00:00", type := chars "SMS-DELIVER",
     concat := some { reference := 7, sequence := 1, total := 2 } }⟩

/-- Second segment of the spec's reassembly scenario: reference 7, sequence
2 of 2, text "world", carried with a different origination and timestamp to
make the provenance of the assembled fields observable. -/
def segWorld : SmsSegment :=
  ⟨{ origination := chars "+3532222222", text := chars "world",
     timestamp := chars "2024-01-01 10:00:05", type := chars "SMS-STATUS-REPORT",
     concat := some { reference := 7, sequence := 2, total := 2 } }⟩

/-! Theorems.  Helper lemmas come first, then one theorem per claim. -/

/-- Every resolution of the correlator worker populates exactly one slot of
the result pair, whatever text has accumulated so far. -/
theorem lueGo_shape (endM acc : List Char) (chunks : List (List Char)) :
    (∃ r, lueGo endM acc chunks = (some r, none)) ∨
    (∃ e, lueGo endM acc chunks = (none, some e)) := by
  induction chunks generalizing acc with
  | nil => exact Or.inr ⟨timedOutError, rfl⟩
  | cons c cs ih =>
    simp only [lueGo]
    split
    · exact Or.inl ⟨_, rfl⟩
    · split
      · exact Or.inr ⟨_, rfl⟩
      · exact ih (acc ++ c)

/-- C1: every resolution of the correlator (listenUntilEnd, hence send) is
either a populated response with a null error or a null response with a
populated error, across the terminal-success, terminal-error and timeout
paths; never both slots populated and never neither. -/
theorem claim1_exclusive_outcome (endM : List Char) (chunks : List (List Char)) :
    (∃ r, listenUntilEnd endM chunks = (some r, none)) ∨
    (∃ e, listenUntilEnd endM chunks = (none, some e)) :=
  lueGo_shape endM [] chunks

/-- C2: the per-chunk terminal detection checks the success condition
first: whenever a delivered chunk makes the accumulated text end with the
success marker, the correlator resolves with a parsed success response,
even when that same accumulated text contains the error substring. -/
theorem claim2_success_priority (endM acc chunk : List Char)
    (rest : List (List Char))
    (hend : endM.isSuffixOf (acc ++ chunk) = true)
    (herr : containsSub atERR (acc ++ chunk) = true) :
    lueGo endM acc (chunk :: rest) = (some (mkATResponse (acc ++ chunk)), none) := by
  simp [lueGo, hend]

/-- Witness for C2 at a concrete exchange: the accumulated text ends with
the OK marker and contains the ERROR substring, and resolution is the
success response. -/
theorem claim2_success_priority_witness :
    atOK.isSuffixOf (([] : List Char) ++ chars "\r\nERROR inside echo\r\n\r\nOK\r\n") = true ∧
    containsSub atERR (([] : List Char) ++ chars "\r\nERROR inside echo\r\n\r\nOK\r\n") = true ∧
    lueGo atOK [] [chars "\r\nERROR inside echo\r\n\r\nOK\r\n"] =
      (some (mkATResponse (([] : List Char) ++ chars "\r\nERROR inside echo\r\n\r\nOK\r\n")), none) :=
  ⟨by decide, by decide,
    claim2_success_priority atOK [] (chars "\r\nERROR inside echo\r\n\r\nOK\r\n") []
      (by decide) (by decide)⟩

/-- Worker form of the timeout claim: if no delivered chunk triggers a
terminal condition, the fold reaches the timer resolution. -/
theorem lueGo_timeout (endM : List Char) (chunks : List (List Char)) :
    ∀ acc, noTerminal endM acc chunks = true →
      lueGo endM acc chunks = (none, some timedOutError) := by
  induction chunks with
  | nil => intro acc _; rfl
  | cons c cs ih =>
    intro acc h
    simp only [noTerminal, Bool.and_eq_true, Bool.not_eq_true'] at h
    obtain ⟨⟨h1, h2⟩, h3⟩ := h
    simp [lueGo, h1, h2, ih (acc ++ c) h3]

/-- C9: when the delivered chunks never make the accumulated text end with
the success marker nor contain the error marker, the call still resolves:
the timer fires and the result is a null response paired with the
timed-out error, whose response text is the fixed timeout report. -/
theorem claim9_timeout_resolution (endM : List Char) (chunks : List (List Char))
    (h : noTerminal endM [] chunks = true) :
    listenUntilEnd endM chunks = (none, some timedOutError) ∧
    timedOutError.response = chars "ERROR: Request Timed Out" :=
  ⟨lueGo_timeout endM chunks [] h, rfl⟩

/-- Witness for C9 at a concrete trickle of chunks that never reaches a
terminal marker. -/
theorem claim9_timeout_resolution_witness :
    noTerminal atOK [] [chars "AT", chars "+CSQ"] = true ∧
    (listenUntilEnd atOK [chars "AT", chars "+CSQ"] = (none, some timedOutError) ∧
      timedOutError.response = chars "ERROR: Request Timed Out") :=
  ⟨by decide, claim9_timeout_resolution atOK [chars "AT", chars "+CSQ"] (by decide)⟩

/-- C6: the CSCA scenario parses to a success response with exactly one
item whose argument list is the single token 5 — a numeric token, whose
integer reading is 5 — and whose data payload is "hello". -/
theorem claim6_csca_scenario :
    (mkATResponse (chars "\r\n+CSCA: 5\r\nhello\r\n\r\nOK\r\n")).ok = true ∧
    (mkATResponse (chars "\r\n+CSCA: 5\r\nhello\r\n\r\nOK\r\n")).items.map
        (fun it => (it.args, it.data)) = [([chars "5"], some (chars "hello"))] ∧
    chars "5" = chars (toString (5 : Nat)) := by
  refine ⟨by decide, by decide, by decide⟩

/-- C10: the response structurer slices a success-marker-length run off the
end of the raw text before splitting it into items, unconditionally: the
items parsed from any raw text are exactly the items parsed when its final
run of that length is replaced by the success marker, so a raw text that
does not end with the marker has its last characters silently dropped from
the parsed items. -/
theorem claim10_unconditional_truncation (p t : List Char)
    (h : t.length = atOK.length) :
    (mkATResponse (p ++ t)).items = (mkATResponse (p ++ atOK)).items := by
  have key : ∀ u : List Char, u.length = atOK.length →
      jsDropRight atOK.length (p ++ u) = p := by
    intro u hu
    have hlen : (p ++ u).length - atOK.length = p.length := by
      simp [List.length_append, hu]
    rw [jsDropRight, hlen, List.take_left]
  simp only [mkATResponse, key t h, key atOK rfl]

/-- Witness for C10: a raw text not ending in the marker loses its final
six characters; its items coincide with those of the marker-terminated
truncation, and in particular the junk tail ABCDEF never reaches any
item. -/
theorem claim10_unconditional_truncation_witness :
    (chars "ABCDEF").length = atOK.length ∧
    (mkATResponse (chars "\r\n+CSCA: 5\r\nhello" ++ chars "ABCDEF")).items =
      (mkATResponse (chars "\r\n+CSCA: 5\r\nhello" ++ atOK)).items :=
  ⟨by decide,
    claim10_unconditional_truncation (chars "\r\n+CSCA: 5\r\nhello") (chars "ABCDEF")
      (by decide)⟩

/-- Running the boot worker over a command list that fails first at `c`
aborts there: only the commands up to and including `c` are issued, the
status is assigned `disconnected`, and the boot failure is thrown. -/
theorem bootGo_abort (dev : Device) (err : ATError) (pre : List (List Char))
    (c : List Char) (post : List (List Char))
    (hpre : ∀ cmd ∈ pre, (dev cmd).2 = none) (hc : (dev c).2 = some err) :
    bootGo dev (pre ++ c :: post) =
      { issued := pre ++ [c]
        statusSet := some ModemStatus.disconnected
        result := Except.error (chars "Failed to boot: " ++ err.response) } := by
  induction pre with
  | nil => simp [bootGo, hc]
  | cons p ps ih =>
    have hp : (dev p).2 = none := hpre p (List.mem_cons_self p ps)
    have ihr := ih (fun cmd hm => hpre cmd (List.mem_cons_of_mem p hm))
    simp [bootGo, hp, ihr]

/-- C3: whenever a step of the fixed boot sequence resolves with an error
(all steps before it having succeeded), boot aborts before issuing any
later step's command, forces the status to disconnected, and throws the
boot failure. -/
theorem claim3_boot_abort (dev : Device) (err : ATError) (pre : List (List Char))
    (c : List Char) (post : List (List Char))
    (hsplit : bootCommands = pre ++ c :: post)
    (hpre : ∀ cmd ∈ pre, (dev cmd).2 = none) (hc : (dev c).2 = some err) :
    bootModel dev =
      { issued := pre ++ [c]
        statusSet := some ModemStatus.disconnected
        result := Except.error (chars "Failed to boot: " ++ err.response) } := by
  rw [bootModel, hsplit]
  exact bootGo_abort dev err pre c post hpre hc

/-- Witness for C3: the spec's scenario, a device failing the third boot
step.  Only the first three commands are issued (the echo and storage
steps never run), and the status is forced to disconnected. -/
theorem claim3_boot_abort_witness :
    bootCommands = [atCmdAT, atCmdSetPdu 0] ++ atCmdSetErrorFormat 1 ::
      [atCmdSetEcho 0, atCmdSetPreferredStorage (chars "ME")] ∧
    (∀ cmd ∈ [atCmdAT, atCmdSetPdu 0], (dev3 cmd).2 = none) ∧
    (dev3 (atCmdSetErrorFormat 1)).2 = some err500 ∧
    bootModel dev3 =
      { issued := [atCmdAT, atCmdSetPdu 0] ++ [atCmdSetErrorFormat 1]
        statusSet := some ModemStatus.disconnected
        result := Except.error (chars "Failed to boot: " ++ err500.response) } :=
  ⟨rfl, by decide, by decide,
    claim3_boot_abort dev3 err500 [atCmdAT, atCmdSetPdu 0] (atCmdSetErrorFormat 1)
      [atCmdSetEcho 0, atCmdSetPreferredStorage (chars "ME")] rfl (by decide) (by decide)⟩

/-- The only status assignment boot can perform is to disconnected. -/
theorem bootGo_statusSet (dev : Device) (cmds : List (List Char)) :
    (bootGo dev cmds).statusSet = none ∨
    (bootGo dev cmds).statusSet = some ModemStatus.disconnected := by
  induction cmds with
  | nil => exact Or.inl rfl
  | cons c cs ih =>
    cases h : (dev c).2 with
    | none => simpa [bootGo, h] using ih
    | some e => simp [bootGo, h]

/-- C8 fails on the code: no execution of connect ever reaches the
connected state or emits a statusChange notification carrying it — the
source never assigns the status the value connected — and in particular a
device that answers every command successfully leaves the modem in the
initial connecting state with no notification emitted at all. -/
theorem claim8_no_connected_transition :
    (∀ dev : Device, (connectModel dev).status ≠ ModemStatus.connected ∧
      ModemStatus.connected ∉ (connectModel dev).statusEvents) ∧
    connectModel allOkDevice =
      { status := ModemStatus.connecting, statusEvents := [] } := by
  constructor
  · intro dev
    unfold connectModel bootModel
    cases hres : (bootGo dev bootCommands).result with
    | ok u => simp [hres]
    | error e =>
      rcases bootGo_statusSet dev bootCommands with h | h <;>
        simp [hres, h, setStatus, applyBootStatus]
  · rfl

/-- Counterexample to C7: on a listing exchange whose correlation resolves
with an error, listMessages does not return at all — it throws the error's
response text past the caller (modelled by the Except error), instead of
returning an empty message set together with the error. -/
theorem claim7_counterexample :
    listMessagesModel decodeNil [chars "\r\n+CMS ERROR: 321\r\n"] =
      Except.error (chars "+CMS ERROR: 321") ∧
    listMessagesModel decodeNil [chars "\r\n+CMS ERROR: 321\r\n"] ≠
      Except.ok [] := by
  refine ⟨by decide, by decide⟩

/-- C7 as amended: for every message-listing request whose correlation
resolves with an error, listMessages throws an Error carrying that error's
response text past its caller; no message set is returned. -/
theorem claim7_amended_throws (decode : List Char → PduData)
    (chunks : List (List Char)) (r : Option ATResponse) (e : ATError)
    (h : listenUntilEnd atOK chunks = (r, some e)) :
    listMessagesModel decode chunks = Except.error e.response := by
  unfold listMessagesModel
  rw [h]
  cases r <;> rfl

/-- Witness for the amended C7 at a concrete failing exchange. -/
theorem claim7_amended_throws_witness :
    listenUntilEnd atOK [chars "\r\n+CMS ERROR: 500\r\n"] =
      (none, some (mkATError (chars "\r\n+CMS ERROR: 500\r\n"))) ∧
    listMessagesModel decodeNil [chars "\r\n+CMS ERROR: 500\r\n"] =
      Except.error (mkATError (chars "\r\n+CMS ERROR: 500\r\n")).response :=
  ⟨by decide,
    claim7_amended_throws decodeNil [chars "\r\n+CMS ERROR: 500\r\n"] none
      (mkATError (chars "\r\n+CMS ERROR: 500\r\n")) (by decide)⟩

/-- Counterexample to C5: reassembling the scenario's two segments in
arrival order sequence-2-first yields a message whose timestamp and kind do
come from the first segment in sorted order, but whose sender is read from
the first segment in arrival order — the source reads `segments[0]` for the
sender before the in-place sort runs — so the sender does not come from the
first segment in sorted order. -/
theorem claim5_counterexample :
    (smsSort [segWorld, segHello]).head? = some segHello ∧
    (mkSms [segWorld, segHello]).timestamp = segHello.pdu.timestamp ∧
    (mkSms [segWorld, segHello]).type = segHello.pdu.type ∧
    (mkSms [segWorld, segHello]).sender ≠ segHello.pdu.origination ∧
    (mkSms [segWorld, segHello]).sender = segWorld.pdu.origination := by
  refine ⟨by decide, by decide, by decide, by decide, by decide⟩

/-- C5 as amended: timestamp and kind are taken from the first segment in
sorted-by-sequence order, while the sender is taken from the first segment
in arrival order, because it is read before the in-place sort mutates the
segment array. -/
theorem claim5_amended_field_provenance (l : List SmsSegment)
    (s₀ t₀ : SmsSegment) (h0 : l.head? = some s₀)
    (h1 : (smsSort l).head? = some t₀) :
    (mkSms l).sender = s₀.pdu.origination ∧
    (mkSms l).timestamp = t₀.pdu.timestamp ∧
    (mkSms l).type = t₀.pdu.type := by
  refine ⟨?_, ?_, ?_⟩ <;> simp [mkSms, h0, h1]

/-- Witness for the amended C5 at the scenario's segments delivered
sequence-2-first. -/
theorem claim5_amended_field_provenance_witness :
    [segWorld, segHello].head? = some segWorld ∧
    (smsSort [segWorld, segHello]).head? = some segHello ∧
    ((mkSms [segWorld, segHello]).sender = segWorld.pdu.origination ∧
      (mkSms [segWorld, segHello]).timestamp = segHello.pdu.timestamp ∧
      (mkSms [segWorld, segHello]).type = segHello.pdu.type) :=
  ⟨rfl, by decide,
    claim5_amended_field_provenance [segWorld, segHello] segWorld segHello rfl (by decide)⟩

/-- Inserting a segment into a run permutes consing it in front. -/
theorem smsInsert_perm (x : SmsSegment) (l : List SmsSegment) :
    List.Perm (smsInsert x l) (x :: l) := by
  induction l with
  | nil => exact List.Perm.refl [x]
  | cons y ys ih =>
    simp only [smsInsert]
    split
    · exact List.Perm.refl _
    · exact (ih.cons y).trans (List.Perm.swap x y ys)

/-- The reassembly sort permutes its input. -/
theorem smsSort_perm (l : List SmsSegment) : List.Perm (smsSort l) l := by
  induction l with
  | nil => exact List.Perm.refl []
  | cons x xs ih => exact (smsInsert_perm x (smsSort xs)).trans (ih.cons x)

/-- On segments that both carry concatenation metadata, the comparator
orders by sequence number. -/
theorem smsCompare_le_iff (a b : SmsSegment) (ha : (a.pdu.concat).isSome)
    (hb : (b.pdu.concat).isSome) :
    smsCompare a b ≤ 0 ↔ segSeq a ≤ segSeq b := by
  rcases Option.isSome_iff_exists.mp ha with ⟨ca, hca⟩
  rcases Option.isSome_iff_exists.mp hb with ⟨cb, hcb⟩
  simp only [smsCompare, segSeq, hca, hcb]
  omega

/-- Inserting a metadata-carrying segment into a sorted run of
metadata-carrying segments keeps it sorted by sequence number. -/
theorem smsInsert_sorted (x : SmsSegment) (l : List SmsSegment)
    (hx : (x.pdu.concat).isSome) (hl : ∀ s ∈ l, (s.pdu.concat).isSome)
    (h : l.Pairwise (fun a b => segSeq a ≤ segSeq b)) :
    (smsInsert x l).Pairwise (fun a b => segSeq a ≤ segSeq b) := by
  induction l with
  | nil => simp [smsInsert]
  | cons y ys ih =>
    have hy : (y.pdu.concat).isSome := hl y (List.mem_cons_self y ys)
    have hys : ∀ s ∈ ys, (s.pdu.concat).isSome :=
      fun s hs => hl s (List.mem_cons_of_mem y hs)
    rw [List.pairwise_cons] at h
    simp only [smsInsert]
    split
    case isTrue hc =>
      have hxy : segSeq x ≤ segSeq y := (smsCompare_le_iff x y hx hy).mp hc
      refine List.Pairwise.cons ?_ (List.Pairwise.cons h.1 h.2)
      intro b hb
      rcases List.mem_cons.mp hb with rfl | hbys
      · exact hxy
      · exact hxy.trans (h.1 b hbys)
    case isFalse hc =>
      have hyx : segSeq y ≤ segSeq x := by
        have := (smsCompare_le_iff x y hx hy).not.mp hc
        omega
      refine List.Pairwise.cons ?_ (ih hys h.2)
      intro b hb
      rcases List.mem_cons.mp ((smsInsert_perm x ys).mem_iff.mp hb) with rfl | hbys
      · exact hyx
      · exact h.1 b hbys

/-- The reassembly sort of metadata-carrying segments is sorted by
sequence number. -/
theorem smsSort_sorted (l : List SmsSegment)
    (hl : ∀ s ∈ l, (s.pdu.concat).isSome) :
    (smsSort l).Pairwise (fun a b => segSeq a ≤ segSeq b) := by
  induction l with
  | nil => simp [smsSort]
  | cons x xs ih =>
    have hx : (x.pdu.concat).isSome := hl x (List.mem_cons_self x xs)
    have hxs : ∀ s ∈ xs, (s.pdu.concat).isSome :=
      fun s hs => hl s (List.mem_cons_of_mem x hs)
    exact smsInsert_sorted x (smsSort xs) hx
      (fun s hs => hxs s ((smsSort_perm xs).mem_iff.mp hs)) (ih hxs)

/-- Two permutations of one set of metadata-carrying segments with distinct
sequence numbers sort to the same list: the sorted orders are permutations
of each other, both strictly sorted by sequence, and strict sortedness
determines the list. -/
theorem smsSort_eq_of_perm (l₁ l₂ : List SmsSegment)
    (hp : List.Perm l₁ l₂)
    (hall : ∀ s ∈ l₁, (s.pdu.concat).isSome)
    (hnd : (l₁.map segSeq).Nodup) :
    smsSort l₁ = smsSort l₂ := by
  have hall₂ : ∀ s ∈ l₂, (s.pdu.concat).isSome :=
    fun s hs => hall s (hp.mem_iff.mpr hs)
  have hnd₂ : (l₂.map segSeq).Nodup := ((hp.map segSeq).nodup_iff).mp hnd
  have strict : ∀ (l : List SmsSegment), (∀ s ∈ l, (s.pdu.concat).isSome) →
      (l.map segSeq).Nodup →
      (smsSort l).Pairwise (fun a b => segSeq a < segSeq b) := by
    intro l hl hndl
    have hs := smsSort_sorted l hl
    have hndl' : ((smsSort l).map segSeq).Nodup :=
      (((smsSort_perm l).map segSeq).nodup_iff).mpr hndl
    have hne : (smsSort l).Pairwise (fun a b => segSeq a ≠ segSeq b) :=
      List.pairwise_map.mp hndl'
    exact (hs.and hne).imp fun hab => Nat.lt_of_le_of_ne hab.1 hab.2
  have hperm : List.Perm (smsSort l₁) (smsSort l₂) :=
    (smsSort_perm l₁).trans (hp.trans (smsSort_perm l₂).symm)
  haveI : IsAntisymm SmsSegment (fun a b => segSeq a < segSeq b) :=
    ⟨fun a b h1 h2 => absurd (h1.trans h2) (Nat.lt_irrefl _)⟩
  exact List.eq_of_perm_of_sorted hperm
    (strict l₁ hall hnd) (strict l₂ hall₂ hnd₂)

/-- C4: reassembly is invariant under arrival-order permutation — for
segments sharing one reference, each carrying metadata with distinct
sequence numbers, every permutation of the input order yields the same
assembled text, the concatenation of segment texts in ascending sequence
order; in particular the scenario's two segments assemble to the text
"hello world" in either input order. -/
theorem claim4_permutation_invariance :
    (∀ (ref : Nat) (l₁ l₂ : List SmsSegment),
        List.Perm l₁ l₂ →
        (∀ s ∈ l₁, (s.pdu.concat.map fun c => c.reference) = some ref) →
        (l₁.map segSeq).Nodup →
        (mkSms l₁).text = (mkSms l₂).text) ∧
    (mkSms [segHello, segWorld]).text = chars "hello world" ∧
    (mkSms [segWorld, segHello]).text = chars "hello world" := by
  refine ⟨?_, by decide, by decide⟩
  intro ref l₁ l₂ hp hall hnd
  have hall' : ∀ s ∈ l₁, (s.pdu.concat).isSome := by
    intro s hs
    have := hall s hs
    cases h : s.pdu.concat with
    | none => rw [h] at this; simp at this
    | some c => rfl
  have hsort := smsSort_eq_of_perm l₁ l₂ hp hall' hnd
  simp [mkSms, hsort]

/-- Witness for C4's general part at the scenario's segments in the two
arrival orders. -/
theorem claim4_permutation_invariance_witness :
    (mkSms [segHello, segWorld]).text = (mkSms [segWorld, segHello]).text :=
  claim4_permutation_invariance.1 7 [segHello, segWorld] [segWorld, segHello]
    (List.Perm.swap segWorld segHello []) (by decide) (by decide)

end WSGsm
